import Mathlib

/-!
Shallow embedding of the DynamicModules repository (src/Manager.py and
src/DynamicModule.py).

Strings are modelled as lists of characters. The Python-level string
operations used by Manager.py (str.replace, str.split, str.capitalize,
os.path.join, os.path.splitext) are embedded below with their CPython
semantics. The stateful Manager object is embedded as explicit state
passing; the lifecycle calls (init / shutdown) are recorded as events in a
trace, and a raised Python exception is an `Option PyError` value (mutations
performed before the raise are kept, as in Python).
-/

set_option autoImplicit false
set_option maxRecDepth 4000

/-- Character list of a string literal, used to write concrete paths. -/
def strL (s : String) : List Char := s.data

/-- Python-level exceptions observable from the code in Manager.py. -/
inductive PyError where
  | keyError
  | typeError
  | attributeError
  | moduleNotFoundError
  | fileNotFoundError
  | indexError
  | userError
deriving DecidableEq, Repr

/-- Worker for Python str.replace with a non-empty pattern, fuelled by the
length of the subject string (the fuel is never exhausted on that fuel). -/
def replaceGo (old new : List Char) : Nat → List Char → List Char
  | 0, s => s
  | _ + 1, [] => []
  | n + 1, c :: rest =>
    if old.isPrefixOf (c :: rest) then new ++ replaceGo old new n ((c :: rest).drop old.length)
    else c :: replaceGo old new n rest

/-- Python str.replace: every non-overlapping occurrence of `old`, scanned left
to right, is replaced by `new`; an empty pattern inserts `new` at every
position of the subject. -/
def pyReplace (s old new : List Char) : List Char :=
  match old with
  | [] => new ++ (s.map (fun c => c :: new)).flatten
  | _ :: _ => replaceGo old new s.length s

/-- Index of the last occurrence of a character (str.rfind restricted to the
uses in posixpath.splitext), `none` when the character is absent. -/
def rfindIdx (c : Char) : List Char → Option Nat
  | [] => none
  | x :: xs =>
    match rfindIdx c xs with
    | some i => some (i + 1)
    | none => if x = c then some 0 else none

/-- First component of posixpath.splitext: the extension is cut at the last
dot, provided that dot lies after the last path separator and that the
basename has at least one non-dot character before it. -/
def splitextRoot (s : List Char) : List Char :=
  match rfindIdx '.' s with
  | none => s
  | some d =>
    let base : Nat :=
      match rfindIdx '/' s with
      | none => 0
      | some i => i + 1
    let sepOk : Bool :=
      match rfindIdx '/' s with
      | none => true
      | some i => decide (i < d)
    let hasStem : Bool := ((s.drop base).take (d - base)).any (fun c => c ≠ '.')
    if sepOk && hasStem then s.take d else s

/-- posixpath.join on two components: an absolute second component discards
the first; otherwise the components are joined with a separator unless the
first is empty or already ends in one. -/
def osJoin (a b : List Char) : List Char :=
  if b.head? = some '/' then b
  else if a = [] ∨ a.getLast? = some '/' then a ++ b
  else a ++ '/' :: b

/-- Python str.split for a single-character separator (total: always yields a
non-empty list of pieces). -/
def pySplit (sep : Char) : List Char → List (List Char)
  | [] => [[]]
  | c :: rest =>
    let r := pySplit sep rest
    if c = sep then [] :: r
    else
      match r with
      | [] => [[c]]
      | h :: t => (c :: h) :: t

/-- Python str.capitalize: first character uppercased, the rest lowercased. -/
def pyCapitalize : List Char → List Char
  | [] => []
  | c :: rest => c.toUpper :: rest.map Char.toLower

/-- Manager.get_os_path (Manager.py lines 47-56): dots back to separators, the
.py extension appended, joined under the root. -/
def get_os_path (module_root_path module_path : List Char) : List Char :=
  osJoin module_root_path (pyReplace module_path (strL ".") (strL "/") ++ strL ".py")

/-- Manager.get_module_path (Manager.py lines 58-70): remove every occurrence
of the root, strip one leading separator, turn separators into dots and drop
the extension. Indexing `os_path[0]` on an empty string raises IndexError. -/
def get_module_path (module_root_path os_path : List Char) : Except PyError (List Char) :=
  match pyReplace os_path module_root_path [] with
  | [] => .error .indexError
  | c :: rest =>
    let relPath := if c = '/' then rest else c :: rest
    .ok (splitextRoot (pyReplace relPath (strL "/") (strL ".")))

/-- Manager.add_module (lines 75-80): the expected class name is the last
dot-separated segment of the identifier (whole identifier when undotted). -/
def moduleClassName (mp : List Char) : List Char :=
  if mp.contains '.' then (pySplit '.' mp).getLastD [] else mp

/-- The per-module dict stored in `module_list` (lines 90-94): the imported
unit ("ref"), the live capability instance, and the mtime fingerprint. Loaded
units and live instances are represented by numeric ids. -/
structure Desc where
  ref : Nat
  inst : Nat
  mtime : Nat
deriving DecidableEq, Repr

/-- The mutable fields of a Manager object: the root path and the
insertion-ordered `module_list` dict; `nextInst` supplies the id of the next
instance produced by a `module_class()` call. -/
structure ManagerState where
  module_dir_path : List Char
  module_list : List (List Char × Desc)
  nextInst : Nat
deriving DecidableEq, Repr

/-- Python dict lookup on the insertion-ordered association list. -/
def dictGet (k : List Char) (d : List (List Char × Desc)) : Option Desc :=
  (d.find? (fun p => decide (p.1 = k))).map (fun p => p.2)

/-- Python dict assignment: overwrite in place when the key exists, append
otherwise. -/
def dictSet (k : List Char) (v : Desc) : List (List Char × Desc) → List (List Char × Desc)
  | [] => [(k, v)]
  | (k', v') :: rest => if k' = k then (k, v) :: rest else (k', v') :: dictSet k v rest

/-- Python `del d[k]` after a successful lookup. -/
def dictDel (k : List Char) : List (List Char × Desc) → List (List Char × Desc)
  | [] => []
  | (k', v') :: rest => if k' = k then rest else (k', v') :: dictDel k rest

/-- The ambient Python environment: the filesystem and the behaviour of the
module units the loader can reach. -/
structure Env where
  importRef : List Char → Option Nat
  hasAttr : Nat → List Char → Bool
  getmtime : List Char → Option Nat
  initRaises : Nat → Bool
  instShutdownRaises : Nat → Bool
  refHasShutdown : Nat → Bool
  refShutdownRaises : Nat → Bool
  pathExists : List Char → Bool
  isdir : List Char → Bool
  abspath : List Char → List Char
  walk : List Char → List (List Char × List (List Char))

/-- Observable lifecycle calls issued by the Manager. -/
inductive Event where
  | initCall (inst : Nat)
  | instShutdownCall (inst : Nat)
  | refShutdownCall (ref : Nat)
deriving DecidableEq, Repr

/-- Outcome of one Manager operation: the state after it, the lifecycle calls
it issued, and the exception it raised, if any. -/
structure Result where
  st : ManagerState
  trace : List Event
  err : Option PyError
deriving DecidableEq, Repr

/-- Manager.add_module (lines 75-97): derive the class name, import the unit
(ModuleNotFoundError on failure), fetch the capitalized class (AttributeError
on failure), instantiate it, read the file's mtime (FileNotFoundError on
failure, before the dict assignment), store the descriptor — overwriting any
existing entry — and only then run init() on the new instance. -/
def add_module (env : Env) (mp : List Char) (st : ManagerState) : Result :=
  let className := pyCapitalize (moduleClassName mp)
  match env.importRef mp with
  | none => ⟨st, [], some .moduleNotFoundError⟩
  | some ref =>
    if env.hasAttr ref className then
      let inst := st.nextInst
      let st1 : ManagerState := ⟨st.module_dir_path, st.module_list, st.nextInst + 1⟩
      match env.getmtime (get_os_path st.module_dir_path mp) with
      | none => ⟨st1, [], some .fileNotFoundError⟩
      | some t =>
        let st2 : ManagerState :=
          ⟨st1.module_dir_path, dictSet mp ⟨ref, inst, t⟩ st1.module_list, st1.nextInst⟩
        if env.initRaises ref then ⟨st2, [.initCall inst], some .userError⟩
        else ⟨st2, [.initCall inst], none⟩
    else ⟨st, [], some .attributeError⟩

/-- Manager.remove_module (lines 99-108): the dict subscript raises KeyError
when the identifier is absent; shutdown() is invoked on the module object
(the stored "ref"), not on the stored instance — AttributeError when the
module has no such attribute — and the entry is deleted only when that call
returns normally. -/
def remove_module (env : Env) (mp : List Char) (st : ManagerState) : Result :=
  match dictGet mp st.module_list with
  | none => ⟨st, [], some .keyError⟩
  | some d =>
    if env.refHasShutdown d.ref then
      if env.refShutdownRaises d.ref then ⟨st, [.refShutdownCall d.ref], some .userError⟩
      else ⟨⟨st.module_dir_path, dictDel mp st.module_list, st.nextInst⟩,
            [.refShutdownCall d.ref], none⟩
    else ⟨st, [], some .attributeError⟩

/-- Manager.reload_module (lines 118-126): `importlib.reload(module_path)` is
handed the identifier string rather than a module object, so CPython raises
TypeError on its first line; no lifecycle call is made and neither the
registry entry nor its mtime fingerprint is touched. -/
def reload_module (_env : Env) (_mp : List Char) (st : ManagerState) : Result :=
  ⟨st, [], some .typeError⟩

/-- The loop body of Manager.shutdown (lines 128-130): instance.shutdown() on
each dict value in order; a raise stops the loop and propagates. -/
def shutdownGo (env : Env) : List (List Char × Desc) → List Event × Option PyError
  | [] => ([], none)
  | (_, d) :: rest =>
    if env.instShutdownRaises d.inst then ([.instShutdownCall d.inst], some .userError)
    else
      let r := shutdownGo env rest
      (.instShutdownCall d.inst :: r.1, r.2)

/-- Manager.shutdown (lines 128-130): iterate over the dict values calling
instance.shutdown(); nothing is ever removed from the dict. -/
def manager_shutdown (env : Env) (st : ManagerState) : Result :=
  ⟨st, (shutdownGo env st.module_list).1, (shutdownGo env st.module_list).2⟩

/-- The dotted import path a discovery candidate is given (lines 31-35):
os.path.join(dir_path.replace(root, "")[1:], splitext(file)[0]) with
separators then turned into dots. -/
def importPathOf (root dirPath file : List Char) : List Char :=
  pyReplace (osJoin ((pyReplace dirPath root []).drop 1) (splitextRoot file))
    (strL "/") (strL ".")

/-- One candidate of Manager.__load_modules_from_path (lines 29-45): files not
ending in .py are skipped; an unseen import path goes through add_module; a
seen one reaches `self.get_os_path(import_path)` on line 44 — a one-argument
call of the two-argument static method — which raises TypeError. -/
def scanFile (env : Env) (dirPath file : List Char) (st : ManagerState) : Result :=
  if (strL ".py").isSuffixOf file then
    let import_path := importPathOf st.module_dir_path dirPath file
    match dictGet import_path st.module_list with
    | none => add_module env import_path st
    | some _ => ⟨st, [], some .typeError⟩
  else ⟨st, [], none⟩

/-- The inner file loop of the discovery walk: an exception from any candidate
aborts the remainder of the loop and propagates. -/
def scanFiles (env : Env) (dirPath : List Char) : List (List Char) → ManagerState → Result
  | [], st => ⟨st, [], none⟩
  | f :: fs, st =>
    let r := scanFile env dirPath f st
    match r.err with
    | some e => ⟨r.st, r.trace, some e⟩
    | none =>
      let r2 := scanFiles env dirPath fs r.st
      ⟨r2.st, r.trace ++ r2.trace, r2.err⟩

/-- The outer os.walk loop of Manager.__load_modules_from_path (lines 27-45):
an exception from any directory's files aborts the walk and propagates. -/
def scanDirs (env : Env) : List (List Char × List (List Char)) → ManagerState → Result
  | [], st => ⟨st, [], none⟩
  | (d, fs) :: rest, st =>
    let r := scanFiles env d fs st
    match r.err with
    | some e => ⟨r.st, r.trace, some e⟩
    | none =>
      let r2 := scanDirs env rest r.st
      ⟨r2.st, r.trace ++ r2.trace, r2.err⟩

/-- Returned by Init: either a constructed Manager or Python's None, plus the
lifecycle calls made and the exception raised during construction, if any. -/
structure InitResult where
  mgr : Option ManagerState
  trace : List Event
  err : Option PyError
deriving DecidableEq, Repr

/-- Init (Manager.py lines 133-152): return None (after printing a message)
when the path or its absolute form does not exist or is not a directory;
otherwise construct a Manager, whose constructor runs one discovery scan over
os.walk of the absolute root starting from an empty module_list. -/
def InitFn (env : Env) (modules_dir_path : List Char) : InitResult :=
  let absPath := env.abspath modules_dir_path
  if !(env.pathExists modules_dir_path && env.pathExists absPath) then ⟨none, [], none⟩
  else if !env.isdir absPath then ⟨none, [], none⟩
  else
    let r := scanDirs env (env.walk absPath) ⟨absPath, [], 0⟩
    match r.err with
    | some e => ⟨none, r.trace, some e⟩
    | none => ⟨some r.st, r.trace, none⟩

/-- Joining of path segments with a separator character; with '/' it builds a
relative os path, with '.' the corresponding dotted identifier. -/
def joinSegs (sep : Char) : List (List Char) → List Char
  | [] => []
  | [s] => s
  | s :: s2 :: rest => s ++ sep :: joinSegs sep (s2 :: rest)

/-- A base environment: every import fails, every file is missing, every
lifecycle call returns normally, paths neither exist nor are directories. -/
def envDefault : Env :=
  ⟨fun _ => none, fun _ _ => false, fun _ => none, fun _ => false, fun _ => false,
   fun _ => false, fun _ => false, fun _ => false, fun _ => false, fun p => p, fun _ => []⟩

/-- Environment in which only the instance with id 1 raises in shutdown(). -/
def envRaiseInst1 : Env :=
  ⟨fun _ => none, fun _ _ => false, fun _ => none, fun _ => false, fun i => decide (i = 1),
   fun _ => false, fun _ => false, fun _ => false, fun _ => false, fun p => p, fun _ => []⟩

/-- A registry holding two loaded modules with instance ids 1 and 2. -/
def stTwoModules : ManagerState :=
  ⟨strL "/r", [(strL "a", ⟨0, 1, 0⟩), (strL "b", ⟨0, 2, 0⟩)], 3⟩

/-- A registry holding one loaded module "m" (unit 0, instance 5, mtime 3). -/
def stOneModule : ManagerState := ⟨strL "/r", [(strL "m", ⟨0, 5, 3⟩)], 6⟩

/-- Environment in which unit 0 exposes a module-level shutdown that raises. -/
def envRefShutdownRaises : Env :=
  ⟨fun _ => none, fun _ _ => false, fun _ => none, fun _ => false, fun _ => false,
   fun r => decide (r = 0), fun r => decide (r = 0), fun _ => false, fun _ => false,
   fun p => p, fun _ => []⟩

/-- Environment in which unit 0 exposes a module-level shutdown that returns. -/
def envRefShutdownOk : Env :=
  ⟨fun _ => none, fun _ _ => false, fun _ => none, fun _ => false, fun _ => false,
   fun r => decide (r = 0), fun _ => false, fun _ => false, fun _ => false,
   fun p => p, fun _ => []⟩

/-- Environment in which only the identifier "good" resolves to a loadable
unit (id 2) exposing its class, with every file reporting mtime 7. -/
def envGoodOnly : Env :=
  ⟨fun mp => if mp = strL "good" then some 2 else none, fun _ _ => true, fun _ => some 7,
   fun _ => false, fun _ => false, fun _ => false, fun _ => false, fun _ => true,
   fun _ => true, fun p => p, fun _ => []⟩

/-- An empty registry rooted at "/r". -/
def stEmpty : ManagerState := ⟨strL "/r", [], 0⟩

/-- Environment whose paths all exist and are directories, with an empty walk. -/
def envValidDir : Env :=
  ⟨fun _ => none, fun _ _ => false, fun _ => none, fun _ => false, fun _ => false,
   fun _ => false, fun _ => false, fun _ => true, fun _ => true, fun p => p, fun _ => []⟩

/-- Environment in which identifier "m" resolves to unit 4, classes resolve,
and every file reports mtime 9. -/
def envAddM : Env :=
  ⟨fun mp => if mp = strL "m" then some 4 else none, fun _ _ => true, fun _ => some 9,
   fun _ => false, fun _ => false, fun _ => false, fun _ => false, fun _ => false,
   fun _ => false, fun p => p, fun _ => []⟩

/-- A registry already holding "m" (unit 4, instance 0, mtime 1). -/
def stWithM : ManagerState := ⟨strL "/r", [(strL "m", ⟨4, 0, 1⟩)], 1⟩

/-- A registry already holding "sub.foo" (unit 0, instance 1, mtime 2). -/
def stSubFoo : ManagerState := ⟨strL "/r", [(strL "sub.foo", ⟨0, 1, 2⟩)], 3⟩

theorem replaceGo_single (a b : Char) :
    ∀ (s : List Char) (n : Nat), s.length ≤ n →
      replaceGo [a] [b] n s = s.map (fun c => if c = a then b else c) := by
  intro s
  induction s with
  | nil => intro n _; cases n <;> rfl
  | cons c rest ih =>
    intro n hn
    cases n with
    | zero => simp at hn
    | succ m =>
      have hrest : rest.length ≤ m := by simpa using hn
      by_cases hac : a = c
      · subst hac
        have h1 : replaceGo [a] [b] (m + 1) (a :: rest)
            = [b] ++ replaceGo [a] [b] m rest := by
          simp [replaceGo, List.isPrefixOf]
        rw [h1, ih m hrest]
        simp
      · have h1 : replaceGo [a] [b] (m + 1) (c :: rest)
            = c :: replaceGo [a] [b] m rest := by
          simp [replaceGo, List.isPrefixOf, hac]
        rw [h1, ih m hrest]
        have hca : ¬ c = a := fun h => hac h.symm
        simp [hca]

theorem pyReplace_single (a b : Char) (s : List Char) :
    pyReplace s [a] [b] = s.map (fun c => if c = a then b else c) :=
  replaceGo_single a b s s.length (Nat.le_refl _)

theorem rfindIdx_eq_none (c : Char) :
    ∀ s : List Char, c ∉ s → rfindIdx c s = none := by
  intro s
  induction s with
  | nil => intro _; rfl
  | cons x xs ih =>
    intro h
    have hx : ¬ x = c := fun he => h (he ▸ List.mem_cons_self x xs)
    have hxs : c ∉ xs := fun hm => h (List.mem_cons_of_mem x hm)
    simp [rfindIdx, ih hxs, hx]

theorem rfindIdx_append_last (c : Char) (xs ys : List Char) (h : c ∉ ys) :
    rfindIdx c (xs ++ c :: ys) = some xs.length := by
  induction xs with
  | nil => simp [rfindIdx, rfindIdx_eq_none c ys h]
  | cons x xs ih => simp [rfindIdx, ih]

theorem splitextRoot_append_py (w : List Char)
    (hslash : '/' ∉ w) (hstem : ∃ c ∈ w, c ≠ '.') :
    splitextRoot (w ++ strL ".py") = w := by
  have hpy : strL ".py" = '.' :: ['p', 'y'] := rfl
  have hdot : rfindIdx '.' (w ++ strL ".py") = some w.length := by
    rw [hpy]
    exact rfindIdx_append_last '.' w ['p', 'y'] (by decide)
  have hsep : rfindIdx '/' (w ++ strL ".py") = none := by
    apply rfindIdx_eq_none
    intro hmem
    rcases List.mem_append.mp hmem with h | h
    · exact hslash h
    · rw [hpy] at h; simp at h
  have htake : (w ++ strL ".py").take w.length = w := List.take_left w (strL ".py")
  have hany : ((w ++ strL ".py").take w.length).any (fun c => c ≠ '.') = true := by
    rw [htake]
    rcases hstem with ⟨c, hc, hne⟩
    exact List.any_eq_true.mpr ⟨c, hc, by simpa using hne⟩
  unfold splitextRoot
  rw [hdot, hsep]
  simp only [Nat.sub_zero, List.drop_zero, Bool.true_and]
  rw [if_pos hany]
  exact htake

theorem map_id_of_mem {f : Char → Char} :
    ∀ l : List Char, (∀ c ∈ l, f c = c) → l.map f = l := by
  intro l
  induction l with
  | nil => intro _; rfl
  | cons c rest ih =>
    intro h
    simp only [List.map]
    rw [h c (List.mem_cons_self c rest), ih (fun d hd => h d (List.mem_cons_of_mem c hd))]

theorem joinSegs_head (sep : Char) (c0 : Char) (s0 : List Char) :
    ∀ rest : List (List Char), ∃ t, joinSegs sep ((c0 :: s0) :: rest) = c0 :: t := by
  intro rest
  cases rest with
  | nil => exact ⟨s0, rfl⟩
  | cons s2 r2 => exact ⟨s0 ++ sep :: joinSegs sep (s2 :: r2), rfl⟩

theorem mem_joinSegs (sep : Char) :
    ∀ (segs : List (List Char)) (c : Char),
      c ∈ joinSegs sep segs → c = sep ∨ ∃ seg ∈ segs, c ∈ seg := by
  intro segs
  induction segs with
  | nil => intro c hc; simp [joinSegs] at hc
  | cons s rest ih =>
    intro c hc
    cases rest with
    | nil =>
      simp only [joinSegs] at hc
      exact Or.inr ⟨s, List.mem_cons_self s [], hc⟩
    | cons s2 r2 =>
      simp only [joinSegs] at hc
      rcases List.mem_append.mp hc with h | h
      · exact Or.inr ⟨s, List.mem_cons_self s (s2 :: r2), h⟩
      · rcases List.mem_cons.mp h with h | h
        · exact Or.inl h
        · rcases ih c h with h | ⟨seg, hseg, hcseg⟩
          · exact Or.inl h
          · exact Or.inr ⟨seg, List.mem_cons_of_mem s hseg, hcseg⟩

theorem map_joinSegs {f : Char → Char} (sep sep2 : Char) (hf : f sep = sep2) :
    ∀ segs : List (List Char), (∀ seg ∈ segs, ∀ c ∈ seg, f c = c) →
      (joinSegs sep segs).map f = joinSegs sep2 segs := by
  intro segs
  induction segs with
  | nil => intro _; rfl
  | cons s rest ih =>
    intro h
    cases rest with
    | nil =>
      simp only [joinSegs]
      exact map_id_of_mem s (h s (List.mem_cons_self s []))
    | cons s2 r2 =>
      simp only [joinSegs, List.map_append, List.map]
      rw [map_id_of_mem s (h s (List.mem_cons_self s (s2 :: r2))), hf,
        ih (fun seg hseg => h seg (List.mem_cons_of_mem s hseg))]

theorem get_module_path_cons (root osp : List Char) (c : Char) (rest : List Char)
    (h : pyReplace osp root [] = c :: rest) (hc : ¬ c = '/') :
    get_module_path root osp
      = .ok (splitextRoot (pyReplace (c :: rest) (strL "/") (strL "."))) := by
  unfold get_module_path
  rw [h]
  simp [hc]

theorem get_module_path_slash (root osp : List Char) (rest : List Char)
    (h : pyReplace osp root [] = '/' :: rest) :
    get_module_path root osp
      = .ok (splitextRoot (pyReplace rest (strL "/") (strL "."))) := by
  unfold get_module_path
  rw [h]
  simp

theorem ident_of_valid (c0 : Char) (s0 : List Char) (rest : List (List Char))
    (hval : ∀ seg ∈ (c0 :: s0) :: rest, seg ≠ [] ∧ ∀ c ∈ seg, c ≠ '.' ∧ c ≠ '/') :
    splitextRoot
        (pyReplace (joinSegs '/' ((c0 :: s0) :: rest) ++ strL ".py") (strL "/") (strL "."))
      = joinSegs '.' ((c0 :: s0) :: rest) := by
  have hslash : strL "/" = ['/'] := rfl
  have hdotc : strL "." = ['.'] := rfl
  rw [hslash, hdotc, pyReplace_single '/' '.', List.map_append]
  have hmapw : (joinSegs '/' ((c0 :: s0) :: rest)).map (fun c => if c = '/' then '.' else c)
      = joinSegs '.' ((c0 :: s0) :: rest) := by
    apply map_joinSegs '/' '.' (by simp)
    intro seg hseg c hc
    exact if_neg ((hval seg hseg).2 c hc).2
  have hmappy : (strL ".py").map (fun c => if c = '/' then '.' else c) = strL ".py" := by decide
  rw [hmapw, hmappy]
  apply splitextRoot_append_py
  · intro hmem
    rcases mem_joinSegs '.' _ '/' hmem with h | ⟨seg, hseg, hcs⟩
    · exact absurd h (by decide)
    · exact ((hval seg hseg).2 '/' hcs).2 rfl
  · obtain ⟨t, ht⟩ := joinSegs_head '.' c0 s0 rest
    refine ⟨c0, ?_, ((hval (c0 :: s0) (List.mem_cons_self _ _)).2 c0
      (List.mem_cons_self c0 s0)).1⟩
    rw [ht]
    exact List.mem_cons_self c0 t

theorem osJoin_std (a : List Char) (c0 : Char) (bs : List Char)
    (hc0 : ¬ c0 = '/') (ha : a ≠ []) (halast : a.getLast? ≠ some '/') :
    osJoin a (c0 :: bs) = a ++ '/' :: c0 :: bs := by
  unfold osJoin
  rw [if_neg (by simp [hc0])]
  rw [if_neg (by simp [ha, halast])]

/-- C3: for a valid root-relative source path (non-empty segments free of the
dot delimiter and the separator, under a non-empty root that does not end in a
separator and whose text does not occur inside the path), translating the path
to an identifier, translating that identifier back to a path, and translating
the result again yields the same identifier as the first translation. -/
theorem c3_path_identifier_roundtrip (root : List Char) (segs : List (List Char))
    (hsegs : segs ≠ [])
    (hval : ∀ seg ∈ segs, seg ≠ [] ∧ ∀ c ∈ seg, c ≠ '.' ∧ c ≠ '/')
    (hroot : root ≠ [])
    (hrootLast : root.getLast? ≠ some '/')
    (h1 : pyReplace (joinSegs '/' segs ++ strL ".py") root []
        = joinSegs '/' segs ++ strL ".py")
    (h2 : pyReplace (root ++ '/' :: (joinSegs '/' segs ++ strL ".py")) root []
        = '/' :: (joinSegs '/' segs ++ strL ".py")) :
    get_module_path root (joinSegs '/' segs ++ strL ".py")
        = Except.ok (joinSegs '.' segs) ∧
    get_module_path root (get_os_path root (joinSegs '.' segs))
        = Except.ok (joinSegs '.' segs) := by
  obtain ⟨c0, s0, rest, rfl⟩ : ∃ c0 s0 rest, segs = (c0 :: s0) :: rest := by
    cases segs with
    | nil => exact absurd rfl hsegs
    | cons s rest =>
      cases s with
      | nil => exact absurd rfl (hval [] (List.mem_cons_self _ _)).1
      | cons c0 s0 => exact ⟨c0, s0, rest, rfl⟩
  have hc0 : c0 ≠ '.' ∧ c0 ≠ '/' :=
    (hval (c0 :: s0) (List.mem_cons_self _ _)).2 c0 (List.mem_cons_self c0 s0)
  obtain ⟨t, ht⟩ := joinSegs_head '/' c0 s0 rest
  have hp : joinSegs '/' ((c0 :: s0) :: rest) ++ strL ".py" = c0 :: (t ++ strL ".py") := by
    rw [ht]; rfl
  constructor
  · rw [get_module_path_cons root _ c0 (t ++ strL ".py") (by rw [h1, hp]) hc0.2]
    rw [← hp]
    exact congrArg Except.ok (ident_of_valid c0 s0 rest hval)
  · have hos : get_os_path root (joinSegs '.' ((c0 :: s0) :: rest))
        = root ++ '/' :: (joinSegs '/' ((c0 :: s0) :: rest) ++ strL ".py") := by
      unfold get_os_path
      have hdots : strL "." = ['.'] := rfl
      have hsl : strL "/" = ['/'] := rfl
      rw [hdots, hsl, pyReplace_single '.' '/']
      have hmap : (joinSegs '.' ((c0 :: s0) :: rest)).map (fun c => if c = '.' then '/' else c)
          = joinSegs '/' ((c0 :: s0) :: rest) := by
        apply map_joinSegs '.' '/' (by simp)
        intro seg hseg c hc
        exact if_neg ((hval seg hseg).2 c hc).1
      rw [hmap, hp]
      exact osJoin_std root c0 (t ++ strL ".py") hc0.2 hroot hrootLast
    rw [hos, get_module_path_slash root _ (joinSegs '/' ((c0 :: s0) :: rest) ++ strL ".py") h2]
    exact congrArg Except.ok (ident_of_valid c0 s0 rest hval)

/-- Witness for C3 at root "/mods" and relative path "sub/foo.py". -/
theorem c3_path_identifier_roundtrip_witness :
    get_module_path (strL "/mods") (joinSegs '/' [strL "sub", strL "foo"] ++ strL ".py")
        = Except.ok (joinSegs '.' [strL "sub", strL "foo"]) ∧
    get_module_path (strL "/mods")
        (get_os_path (strL "/mods") (joinSegs '.' [strL "sub", strL "foo"]))
        = Except.ok (joinSegs '.' [strL "sub", strL "foo"]) :=
  c3_path_identifier_roundtrip (strL "/mods") [strL "sub", strL "foo"]
    (by decide) (by decide) (by decide) (by decide) (by decide) (by decide)

theorem shutdownGo_ok (env : Env) :
    ∀ l : List (List Char × Desc),
      (∀ p ∈ l, env.instShutdownRaises p.2.inst = false) →
      shutdownGo env l = (l.map (fun p => Event.instShutdownCall p.2.inst), none) := by
  intro l
  induction l with
  | nil => intro _; rfl
  | cons p rest ih =>
    intro h
    obtain ⟨k, d⟩ := p
    have hd : env.instShutdownRaises d.inst = false := h (k, d) (List.mem_cons_self _ _)
    simp only [shutdownGo, hd, Bool.false_eq_true, if_false, List.map]
    rw [ih (fun q hq => h q (List.mem_cons_of_mem _ hq))]

theorem shutdownGo_fail (env : Env) (k : List Char) (d : Desc)
    (post : List (List Char × Desc)) (hd : env.instShutdownRaises d.inst = true) :
    ∀ pre : List (List Char × Desc),
      (∀ p ∈ pre, env.instShutdownRaises p.2.inst = false) →
      shutdownGo env (pre ++ (k, d) :: post)
        = (pre.map (fun p => Event.instShutdownCall p.2.inst)
            ++ [Event.instShutdownCall d.inst], some PyError.userError) := by
  intro pre
  induction pre with
  | nil => intro _; simp [shutdownGo, hd]
  | cons q rest ih =>
    intro h
    obtain ⟨k', d'⟩ := q
    have hq : env.instShutdownRaises d'.inst = false := h (k', d') (List.mem_cons_self _ _)
    simp only [List.cons_append, shutdownGo, hq, Bool.false_eq_true, if_false, List.map,
      List.append_eq]
    rw [ih (fun q hq => h q (List.mem_cons_of_mem _ hq))]

/-- C2 amended: the shutdown-all operation invokes shutdown() on the stored
instances in insertion order, stopping at the first one that raises (whose
error propagates); when none raises all N instances are invoked; in every
case the registry mapping is left unchanged, never cleared. -/
theorem c2_shutdown_behavior (env : Env) (st : ManagerState) :
    (manager_shutdown env st).st = st ∧
    ((∀ p ∈ st.module_list, env.instShutdownRaises p.2.inst = false) →
      (manager_shutdown env st).trace
          = st.module_list.map (fun p => Event.instShutdownCall p.2.inst) ∧
      (manager_shutdown env st).err = none) ∧
    (∀ (pre : List (List Char × Desc)) (k : List Char) (d : Desc)
        (post : List (List Char × Desc)),
      st.module_list = pre ++ (k, d) :: post →
      (∀ p ∈ pre, env.instShutdownRaises p.2.inst = false) →
      env.instShutdownRaises d.inst = true →
      (manager_shutdown env st).trace
          = pre.map (fun p => Event.instShutdownCall p.2.inst)
              ++ [Event.instShutdownCall d.inst] ∧
      (manager_shutdown env st).err = some PyError.userError) := by
  refine ⟨rfl, ?_, ?_⟩
  · intro h
    unfold manager_shutdown
    rw [shutdownGo_ok env st.module_list h]
    exact ⟨rfl, rfl⟩
  · intro pre k d post hsplit hpre hd
    unfold manager_shutdown
    rw [hsplit, shutdownGo_fail env k d post hd pre hpre]
    exact ⟨rfl, rfl⟩

/-- Counterexample to C2 as stated: with two loaded modules whose first
instance raises in shutdown(), only one shutdown() call is made and the
registry mapping is left non-empty (it is unchanged). -/
theorem c2_counterexample :
    (manager_shutdown envRaiseInst1 stTwoModules).trace = [Event.instShutdownCall 1] ∧
    (manager_shutdown envRaiseInst1 stTwoModules).err = some PyError.userError ∧
    (manager_shutdown envRaiseInst1 stTwoModules).st.module_list = stTwoModules.module_list ∧
    stTwoModules.module_list ≠ [] := by decide

/-- Witness for C2 amended: a no-raise registry of one module. -/
theorem c2_shutdown_behavior_witness :
    (manager_shutdown envDefault stOneModule).trace
        = stOneModule.module_list.map (fun p => Event.instShutdownCall p.2.inst) ∧
    (manager_shutdown envDefault stOneModule).err = none :=
  (c2_shutdown_behavior envDefault stOneModule).2.1 (by decide)

/-- C5 amended: when the identifier is present and the stored module object
has a shutdown attribute, remove_module invokes shutdown() on the module
object (the handle), never on the live instance; an error raised there
propagates to the caller with the entry retained, and only a normal return
removes the registry entry. -/
theorem c5_remove_behavior (env : Env) (mp : List Char) (st : ManagerState) (d : Desc)
    (hd : dictGet mp st.module_list = some d)
    (hhas : env.refHasShutdown d.ref = true) :
    (remove_module env mp st).trace = [Event.refShutdownCall d.ref] ∧
    (env.refShutdownRaises d.ref = true →
      remove_module env mp st = ⟨st, [Event.refShutdownCall d.ref], some PyError.userError⟩) ∧
    (env.refShutdownRaises d.ref = false →
      remove_module env mp st
        = ⟨⟨st.module_dir_path, dictDel mp st.module_list, st.nextInst⟩,
           [Event.refShutdownCall d.ref], none⟩) := by
  unfold remove_module
  rw [hd]
  simp only [hhas, if_true]
  refine ⟨?_, ?_, ?_⟩
  · cases hr : env.refShutdownRaises d.ref <;> simp [hr]
  · intro hr; simp [hr]
  · intro hr; simp [hr]

/-- Counterexample to C5 as stated: with the module object's shutdown raising,
the error propagates and the entry stays; with it returning normally, the
only call made is on the module object (ref 0), never on the live instance 5. -/
theorem c5_counterexample :
    remove_module envRefShutdownRaises (strL "m") stOneModule
        = ⟨stOneModule, [Event.refShutdownCall 0], some PyError.userError⟩ ∧
    remove_module envRefShutdownOk (strL "m") stOneModule
        = ⟨⟨strL "/r", [], 6⟩, [Event.refShutdownCall 0], none⟩ := by decide

/-- Witness for C5 amended at the one-module registry. -/
theorem c5_remove_behavior_witness :
    (remove_module envRefShutdownOk (strL "m") stOneModule).trace
        = [Event.refShutdownCall 0] ∧
    remove_module envRefShutdownOk (strL "m") stOneModule
        = ⟨⟨stOneModule.module_dir_path, dictDel (strL "m") stOneModule.module_list,
            stOneModule.nextInst⟩, [Event.refShutdownCall 0], none⟩ := by
  have h := c5_remove_behavior envRefShutdownOk (strL "m") stOneModule ⟨0, 5, 3⟩
    (by decide) (by decide)
  exact ⟨h.1, h.2.2 (by decide)⟩

/-- C6: removing an identifier that is not present raises the dict's KeyError
(the not-found failure) before any other action: the registry mapping is
unmodified and no lifecycle call is made. -/
theorem c6_remove_absent (env : Env) (mp : List Char) (st : ManagerState)
    (h : dictGet mp st.module_list = none) :
    remove_module env mp st = ⟨st, [], some PyError.keyError⟩ := by
  unfold remove_module
  rw [h]

/-- Witness for C6 on an empty registry. -/
theorem c6_remove_absent_witness :
    remove_module envDefault (strL "x") stEmpty = ⟨stEmpty, [], some PyError.keyError⟩ :=
  c6_remove_absent envDefault (strL "x") stEmpty (by decide)

/-- C10: when the shutdown call performed during remove_module raises, the
error propagates and the registry mapping is unchanged — the entry, with its
handle, instance and fingerprint, is still present. -/
theorem c10_remove_atomic_on_error (env : Env) (mp : List Char) (st : ManagerState) (d : Desc)
    (hd : dictGet mp st.module_list = some d)
    (hhas : env.refHasShutdown d.ref = true)
    (hraise : env.refShutdownRaises d.ref = true) :
    remove_module env mp st = ⟨st, [Event.refShutdownCall d.ref], some PyError.userError⟩ ∧
    dictGet mp (remove_module env mp st).st.module_list = some d := by
  have h1 : remove_module env mp st
      = ⟨st, [Event.refShutdownCall d.ref], some PyError.userError⟩ := by
    unfold remove_module
    rw [hd]
    simp [hhas, hraise]
  exact ⟨h1, by rw [h1]; exact hd⟩

/-- Witness for C10 at the one-module registry with a raising shutdown. -/
theorem c10_remove_atomic_on_error_witness :
    remove_module envRefShutdownRaises (strL "m") stOneModule
        = ⟨stOneModule, [Event.refShutdownCall 0], some PyError.userError⟩ ∧
    dictGet (strL "m")
        (remove_module envRefShutdownRaises (strL "m") stOneModule).st.module_list
        = some ⟨0, 5, 3⟩ :=
  c10_remove_atomic_on_error envRefShutdownRaises (strL "m") stOneModule ⟨0, 5, 3⟩
    (by decide) (by decide) (by decide)

/-- C1: evidence of the defect. reload_module hands importlib.reload the
identifier string, so it raises TypeError with no shutdown() call, no init()
call and no fingerprint refresh, leaving the registry entry as it was; the
discovery path for an already-present identifier likewise raises TypeError at
the one-argument call of the two-argument static method get_os_path. -/
theorem c1_reload_raises_typeerror :
    reload_module envDefault (strL "sub.foo") stSubFoo
        = ⟨stSubFoo, [], some PyError.typeError⟩ ∧
    scanFiles envDefault (strL "/r/sub") [strL "foo.py"] stSubFoo
        = ⟨stSubFoo, [], some PyError.typeError⟩ := by decide

/-- C4 amended: a load failure of a single discovery candidate aborts the
scan: the error propagates to the caller and the remaining candidate files
are never examined (the result does not depend on them), with no further
module loaded or lifecycle call made. -/
theorem c4_scan_aborts (env : Env) (dirPath bad : List Char) (rest : List (List Char))
    (st : ManagerState)
    (hpy : (strL ".py").isSuffixOf bad = true)
    (hnew : dictGet (importPathOf st.module_dir_path dirPath bad) st.module_list = none)
    (hfail : env.importRef (importPathOf st.module_dir_path dirPath bad) = none) :
    scanFiles env dirPath (bad :: rest) st = ⟨st, [], some PyError.moduleNotFoundError⟩ := by
  have hcand : scanFile env dirPath bad st = ⟨st, [], some PyError.moduleNotFoundError⟩ := by
    unfold scanFile
    rw [if_pos hpy]
    simp only [hnew]
    unfold add_module
    simp only [hfail]
  unfold scanFiles
  simp only [hcand]

/-- Counterexample to C4 as stated: with candidates bad.py (unresolvable) and
good.py (loadable) in one directory, the scan aborts on the first candidate
with ModuleNotFoundError and loads nothing, although good.py alone would have
loaded successfully. -/
theorem c4_counterexample :
    scanDirs envGoodOnly [(strL "/r", [strL "bad.py", strL "good.py"])] stEmpty
        = ⟨stEmpty, [], some PyError.moduleNotFoundError⟩ ∧
    (add_module envGoodOnly (strL "good") stEmpty).err = none ∧
    dictGet (strL "good")
        (scanDirs envGoodOnly [(strL "/r", [strL "bad.py", strL "good.py"])] stEmpty).st.module_list
        = none := by decide

/-- Witness for C4 amended on the same directory listing. -/
theorem c4_scan_aborts_witness :
    scanFiles envGoodOnly (strL "/r") [strL "bad.py", strL "good.py"] stEmpty
        = ⟨stEmpty, [], some PyError.moduleNotFoundError⟩ :=
  c4_scan_aborts envGoodOnly (strL "/r") (strL "bad.py") [strL "good.py"] stEmpty
    (by decide) (by decide) (by decide)

/-- C7: the bootstrap entry point validates existence and directory-ness of
the root; on failure it raises nothing and returns Python's None (a
reportable failure value) with no registry constructed and no lifecycle call
made; on success it returns a Manager whose registry is populated by the one
discovery scan its constructor runs from an empty mapping. -/
theorem c7_init_validation (env : Env) (p : List Char) :
    ((env.pathExists p && env.pathExists (env.abspath p) && env.isdir (env.abspath p)) = false →
      InitFn env p = ⟨none, [], none⟩) ∧
    (∀ r : Result,
      (env.pathExists p && env.pathExists (env.abspath p) && env.isdir (env.abspath p)) = true →
      scanDirs env (env.walk (env.abspath p)) ⟨env.abspath p, [], 0⟩ = r →
      r.err = none →
      InitFn env p = ⟨some r.st, r.trace, none⟩) := by
  constructor
  · intro h
    unfold InitFn
    cases he1 : env.pathExists p <;> cases he2 : env.pathExists (env.abspath p) <;>
      cases he3 : env.isdir (env.abspath p) <;> simp_all
  · intro r hcond hscan herr
    obtain ⟨⟨h1, h2⟩, h3⟩ : (env.pathExists p = true ∧ env.pathExists (env.abspath p) = true)
        ∧ env.isdir (env.abspath p) = true := by
      constructor
      · exact Bool.and_eq_true_iff.mp (Bool.and_eq_true_iff.mp hcond).1
      · exact (Bool.and_eq_true_iff.mp hcond).2
    unfold InitFn
    simp only [h1, h2, h3, Bool.and_true, Bool.true_and, Bool.and_self, Bool.not_true,
      Bool.false_eq_true, if_false, hscan, herr]

/-- Witness for C7: a nonexistent root yields None without raising; an
existing empty directory yields a Manager with an empty registry. -/
theorem c7_init_validation_witness :
    InitFn envDefault (strL "/r") = ⟨none, [], none⟩ ∧
    InitFn envValidDir (strL "/r") = ⟨some ⟨strL "/r", [], 0⟩, [], none⟩ :=
  ⟨(c7_init_validation envDefault (strL "/r")).1 (by decide),
   (c7_init_validation envValidDir (strL "/r")).2 ⟨⟨strL "/r", [], 0⟩, [], none⟩
     (by decide) (by decide) (by decide)⟩

theorem dictGet_dictSet_self (k : List Char) (v : Desc) :
    ∀ l : List (List Char × Desc), dictGet k (dictSet k v l) = some v := by
  intro l
  induction l with
  | nil =>
    show dictGet k [(k, v)] = some v
    unfold dictGet
    rw [List.find?_cons_of_pos _ (by simp)]
    rfl
  | cons p rest ih =>
    obtain ⟨k', v'⟩ := p
    by_cases hk : k' = k
    · subst hk
      show dictGet k' (if k' = k' then (k', v) :: rest else (k', v') :: dictSet k' v rest)
          = some v
      rw [if_pos rfl]
      unfold dictGet
      rw [List.find?_cons_of_pos _ (by simp)]
      rfl
    · simp only [dictSet, hk, if_false]
      unfold dictGet
      rw [List.find?_cons_of_neg _ (by simp [hk])]
      exact ih

/-- C8: a second add for an identifier already present builds a fresh
descriptor (new instance id, current mtime) that overwrites the stored one;
the only lifecycle call made is init() on the new instance — the first
instance's shutdown() is never invoked, the old instance being silently
dropped. -/
theorem c8_add_overwrites (env : Env) (mp : List Char) (st : ManagerState) (dOld : Desc)
    (r t : Nat)
    (_hold : dictGet mp st.module_list = some dOld)
    (himp : env.importRef mp = some r)
    (hattr : env.hasAttr r (pyCapitalize (moduleClassName mp)) = true)
    (hmt : env.getmtime (get_os_path st.module_dir_path mp) = some t)
    (hinit : env.initRaises r = false) :
    add_module env mp st
      = ⟨⟨st.module_dir_path, dictSet mp ⟨r, st.nextInst, t⟩ st.module_list, st.nextInst + 1⟩,
         [Event.initCall st.nextInst], none⟩ ∧
    dictGet mp (add_module env mp st).st.module_list = some ⟨r, st.nextInst, t⟩ := by
  have h1 : add_module env mp st
      = ⟨⟨st.module_dir_path, dictSet mp ⟨r, st.nextInst, t⟩ st.module_list, st.nextInst + 1⟩,
         [Event.initCall st.nextInst], none⟩ := by
    unfold add_module
    rw [himp]
    simp only [hattr, if_true]
    rw [hmt]
    simp [hinit]
  exact ⟨h1, by rw [h1]; exact dictGet_dictSet_self mp ⟨r, st.nextInst, t⟩ st.module_list⟩

/-- Witness for C8: re-adding "m" over a registry already holding it. -/
theorem c8_add_overwrites_witness :
    add_module envAddM (strL "m") stWithM
      = ⟨⟨stWithM.module_dir_path, dictSet (strL "m") ⟨4, stWithM.nextInst, 9⟩
            stWithM.module_list, stWithM.nextInst + 1⟩,
         [Event.initCall stWithM.nextInst], none⟩ ∧
    dictGet (strL "m") (add_module envAddM (strL "m") stWithM).st.module_list
        = some ⟨4, stWithM.nextInst, 9⟩ :=
  c8_add_overwrites envAddM (strL "m") stWithM ⟨4, 0, 1⟩ 4 9
    (by decide) (by decide) (by decide) (by decide) (by decide)

/-- C9 amended: the path-to-identifier translation performs no containment
validation: whenever removing the root's occurrences leaves a non-empty
string — in particular for any osPath that does not lie under root — it
returns an identifier rather than failing. -/
theorem c9_no_containment_check (root osPath : List Char)
    (h : pyReplace osPath root [] ≠ []) :
    ∃ ident, get_module_path root osPath = Except.ok ident := by
  unfold get_module_path
  cases hrep : pyReplace osPath root [] with
  | nil => exact absurd hrep h
  | cons c rest => exact ⟨_, rfl⟩

/-- Counterexample to C9 as stated: "/elsewhere/x.py" does not lie under the
root "/root", yet the translation returns the identifier "elsewhere.x"
instead of failing. -/
theorem c9_counterexample :
    (strL "/root").isPrefixOf (strL "/elsewhere/x.py") = false ∧
    get_module_path (strL "/root") (strL "/elsewhere/x.py")
        = Except.ok (strL "elsewhere.x") := ⟨by decide, by rfl⟩

/-- Witness for C9 amended at another out-of-root path. -/
theorem c9_no_containment_check_witness :
    ∃ ident, get_module_path (strL "/r") (strL "/a/b.py") = Except.ok ident :=
  c9_no_containment_check (strL "/r") (strL "/a/b.py") (by decide)
